import Mathlib

/-!
# Verification of the `zero` local file-backed service registry

Shallow embedding of `contrib/registry/local/registry.go` and
`contrib/registry/local/watcher.go` (the file-backed Kratos registry and its
polling watcher).

Modelling conventions:
* The file system is a map from path strings to file contents.  Since no claim
  depends on the JSON byte format produced by `json.MarshalIndent`, file
  contents are modelled at the document level (`Option RegistryData` per path);
  encode/decode failures and I/O failures are modelled by explicit outcome
  oracles threaded into each operation, mirroring the `err != nil` branches of
  the Go code.
* `time.Now().Unix()` is an explicit `now : Int` parameter.
* Go `nil` pointers to `registry.ServiceInstance` are modelled by `Option`;
  dereferencing `none` is a distinguished panic outcome.
* Go maps (`map[string][]*ServiceInstance`) are association lists with
  first-match lookup; `m[k] = v` updates every pair with key `k` (Go maps have
  unique keys, so this coincides with Go's semantics on well-formed maps) and
  `delete(m, k)` removes the key.
-/

namespace LocalRegistry

/-- Kratos `registry.ServiceInstance` (the caller-facing instance type). -/
structure KServiceInstance where
  ID        : String
  Name      : String
  Version   : String
  Metadata  : List (String × String)
  Endpoints : List String
deriving DecidableEq, Repr

/-- `ServiceInstance` from registry.go: the instance record stored in the
registry file (adds the registry-assigned `Timestamp`). -/
structure ServiceInstance where
  ID        : String
  Name      : String
  Version   : String
  Metadata  : List (String × String)
  Endpoints : List String
  Timestamp : Int
deriving DecidableEq, Repr

/-- The `services` field of `RegistryData`: Go's
`map[string][]*ServiceInstance` as an association list (keys unique). -/
abbrev SMap := List (String × List ServiceInstance)

/-- `RegistryData` from registry.go: the on-disk document. -/
structure RegistryData where
  Services : SMap
  Version  : String
  Updated  : Int
deriving DecidableEq

/-- Go map read `m[k]`: a missing key yields the zero value (`nil` slice,
modelled as `[]`). -/
def mapGet (m : SMap) (k : String) : List ServiceInstance :=
  match m with
  | [] => []
  | p :: rest => if p.1 = k then p.2 else mapGet rest k

/-- Go map write `m[k] = v`: update the (unique) binding for `k` in place, or
add a new binding if the key is absent. -/
def mapSet : SMap → String → List ServiceInstance → SMap
  | [], k, v => [(k, v)]
  | p :: rest, k, v => if p.1 = k then (k, v) :: rest else p :: mapSet rest k v

/-- Go `delete(m, k)`. -/
def mapDelete (m : SMap) (k : String) : SMap :=
  m.filter (fun p => p.1 ≠ k)

/-- Whether the map contains the key `k` (Go's `_, ok := m[k]`). -/
def mapHasKey (m : SMap) (k : String) : Bool :=
  m.any (fun p => p.1 = k)

theorem mapGet_mapSet_self (m : SMap) (k : String) (v : List ServiceInstance) :
    mapGet (mapSet m k v) k = v := by
  induction m with
  | nil => simp [mapSet, mapGet]
  | cons p rest ih =>
    rw [mapSet]
    by_cases hp : p.1 = k
    · simp [hp, mapGet]
    · rw [if_neg hp, mapGet, if_neg hp]
      exact ih

theorem mapGet_mapSet_ne (m : SMap) (k k' : String) (v : List ServiceInstance)
    (hne : k' ≠ k) : mapGet (mapSet m k v) k' = mapGet m k' := by
  induction m with
  | nil =>
    simp only [mapSet, mapGet]
    rw [if_neg (show ¬(k, v).1 = k' from fun h => hne h.symm)]
  | cons p rest ih =>
    rw [mapSet]
    by_cases hp : p.1 = k
    · rw [if_pos hp, mapGet, mapGet, if_neg (fun h => hne h.symm),
        if_neg (by rw [hp]; exact fun h => hne h.symm)]
    · rw [if_neg hp, mapGet, mapGet]
      by_cases hp' : p.1 = k'
      · rw [if_pos hp', if_pos hp']
      · rw [if_neg hp', if_neg hp']
        exact ih

theorem mapGet_mapDelete_self (m : SMap) (k : String) :
    mapGet (mapDelete m k) k = [] := by
  induction m with
  | nil => rfl
  | cons p rest ih =>
    unfold mapDelete at *
    by_cases hp : p.1 = k
    · simpa [List.filter, hp] using ih
    · simp only [List.filter]
      rw [show (decide (p.1 ≠ k)) = true by simpa using hp]
      rw [mapGet, if_neg hp]
      exact ih

theorem mapGet_mapDelete_ne (m : SMap) (k k' : String) (hne : k' ≠ k) :
    mapGet (mapDelete m k) k' = mapGet m k' := by
  induction m with
  | nil => rfl
  | cons p rest ih =>
    unfold mapDelete at *
    by_cases hp : p.1 = k
    · simp only [List.filter]
      rw [show (decide (p.1 ≠ k)) = false by simpa using hp]
      rw [mapGet, if_neg (by rw [hp]; exact fun h => hne h.symm)]
      exact ih
    · simp only [List.filter]
      rw [show (decide (p.1 ≠ k)) = true by simpa using hp]
      rw [mapGet, mapGet]
      by_cases hp' : p.1 = k'
      · simp [hp']
      · rw [if_neg hp', if_neg hp']
        exact ih

/-! ## File system model and the persistent store (registry.go) -/

/-- The file system: a map from paths to file contents.  Contents are held at
the document level (see the header comment). -/
def FS := String → Option RegistryData

/-- Store `content` at `path` (`os.WriteFile`; `none` removes the file). -/
def setFile (fs : FS) (path : String) (content : Option RegistryData) : FS :=
  fun p => if p = path then content else fs p

/-- `os.Rename src dst`: afterwards `dst` holds what `src` held and `src` is
gone. -/
def renameFile (fs : FS) (src dst : String) : FS :=
  fun p => if p = dst then fs src else if p = src then none else fs p

/-- Outcome oracle for one `writeRegistryFile` call, naming the `err != nil`
branch (if any) that fires.  A failing `os.WriteFile` may leave arbitrary
content at the temporary path, carried as `leftover`. -/
inductive WriteOutcome where
  | encodeFail
  | tmpWriteFail (leftover : Option RegistryData)
  | renameFail
  | ok
deriving DecidableEq

/-- `writeRegistryFile` from registry.go: marshal `data`, write it to the
sibling temporary path `filePath ++ ".tmp"`, then rename the temporary file
over `filePath`.  Returns the error (if any) and the resulting file system. -/
def writeRegistryFile (fs : FS) (filePath : String) (data : RegistryData)
    (o : WriteOutcome) : Option String × FS :=
  match o with
  | .encodeFail => (some "json marshal failed", fs)
  | .tmpWriteFail leftover =>
      (some "write temp file failed", setFile fs (filePath ++ ".tmp") leftover)
  | .renameFail =>
      (some "rename failed", setFile fs (filePath ++ ".tmp") (some data))
  | .ok =>
      (none,
        renameFile (setFile fs (filePath ++ ".tmp") (some data))
          (filePath ++ ".tmp") filePath)

/-- `readRegistryFile` from registry.go: `os.ReadFile` followed by
`json.Unmarshal`.  `readOk = false` models an I/O or decode failure. -/
def readRegistryFile (fs : FS) (filePath : String) (readOk : Bool) :
    Except String RegistryData :=
  if readOk then
    match fs filePath with
    | none => .error "no such file"
    | some d => .ok d
  else
    .error "read or unmarshal failed"

/-! ## Registry operations (registry.go) -/

/-- The internal `ServiceInstance` built by `Register` from the caller's
Kratos instance (registry.go lines 97–104): all fields copied verbatim,
`Timestamp` set to the current time. -/
def mkInstance (s : KServiceInstance) (now : Int) : ServiceInstance :=
  { ID := s.ID
    Name := s.Name
    Version := s.Version
    Metadata := s.Metadata
    Endpoints := s.Endpoints
    Timestamp := now }

/-- The add-or-update loop of `Register` (registry.go lines 111–123): replace
the first list entry whose `ID` matches, otherwise append at the end. -/
def updateList : List ServiceInstance → ServiceInstance → List ServiceInstance
  | [], inst => [inst]
  | e :: rest, inst =>
      if e.ID = inst.ID then inst :: rest else e :: updateList rest inst

/-- The removal loop of `Deregister` (registry.go lines 156–162): remove the
first list entry whose `ID` matches, if any. -/
def removeFirst : List ServiceInstance → String → List ServiceInstance
  | [], _ => []
  | e :: rest, id => if e.ID = id then rest else e :: removeFirst rest id

/-- The pure state change of `Register` on the decoded document
(registry.go lines 96–126). -/
def registerData (d : RegistryData) (s : KServiceInstance) (now : Int) :
    RegistryData :=
  { d with
      Services := mapSet d.Services s.Name
        (updateList (mapGet d.Services s.Name) (mkInstance s now))
      Updated := now }

/-- The pure state change of `Deregister` on the decoded document
(registry.go lines 155–170): remove the first match; if the remaining list is
empty, delete the service's key entirely. -/
def deregisterData (d : RegistryData) (s : KServiceInstance) (now : Int) :
    RegistryData :=
  { d with
      Services :=
        if removeFirst (mapGet d.Services s.Name) s.ID = [] then
          mapDelete d.Services s.Name
        else
          mapSet d.Services s.Name
            (removeFirst (mapGet d.Services s.Name) s.ID)
      Updated := now }

/-- `Registry.Register` (registry.go lines 83–136): nil check, read the file
under the exclusive lock, add-or-update, persist, return.  The caller's
instance is `Option`al, mirroring the Go pointer. -/
def Register (fs : FS) (filePath : String) (service : Option KServiceInstance)
    (now : Int) (readOk : Bool) (wo : WriteOutcome) : Option String × FS :=
  match service with
  | none => (some "service cannot be nil", fs)
  | some s =>
      match readRegistryFile fs filePath readOk with
      | .error e => (some ("failed to read registry file: " ++ e), fs)
      | .ok d =>
          let d' := registerData d s now
          match writeRegistryFile fs filePath d' wo with
          | (some e, fs') => (some ("failed to write registry file: " ++ e), fs')
          | (none, fs') => (none, fs')

/-- Outcome of `Registry.Deregister`, which performs no nil check: after a
successful read it dereferences `service.Name` directly (registry.go
line 155), so a `none` argument reaching that line is a nil-pointer panic,
not a returned error. -/
inductive DeregisterOutcome where
  | nilPanic
  | result (err : Option String) (fs : FS)

/-- `Registry.Deregister` (registry.go lines 146–180): read the file under the
exclusive lock (line 150), returning the wrapped read error on failure
(line 152, before the instance is ever dereferenced); then access
`service.Name` (line 155) — a nil-pointer panic when the instance is nil —
remove the first `(name, id)` match if present (no error when absent), drop
the key if its list became empty, persist, return. -/
def Deregister (fs : FS) (filePath : String)
    (service : Option KServiceInstance) (now : Int) (readOk : Bool)
    (wo : WriteOutcome) : DeregisterOutcome :=
  match readRegistryFile fs filePath readOk with
  | .error e => .result (some ("failed to read registry file: " ++ e)) fs
  | .ok d =>
      match service with
      | none => .nilPanic
      | some s =>
          let d' := deregisterData d s now
          match writeRegistryFile fs filePath d' wo with
          | (some e, fs') =>
              .result (some ("failed to write registry file: " ++ e)) fs'
          | (none, fs') => .result none fs'

/-- The conversion of a stored instance back to the Kratos instance type
(registry.go lines 203–213): `Timestamp` is dropped. -/
def instToK (i : ServiceInstance) : KServiceInstance :=
  { ID := i.ID
    Name := i.Name
    Version := i.Version
    Metadata := i.Metadata
    Endpoints := i.Endpoints }

/-- `Registry.GetService` (registry.go lines 191–216): read the file under the
shared lock, return the (possibly empty) instance list for the name. -/
def GetService (fs : FS) (filePath : String) (serviceName : String)
    (readOk : Bool) : Except String (List KServiceInstance) :=
  match readRegistryFile fs filePath readOk with
  | .error e => .error ("failed to read registry file: " ++ e)
  | .ok d => .ok ((mapGet d.Services serviceName).map instToK)

/-- The initial document created by `New` (registry.go lines 59–63). -/
def initialData (now : Int) : RegistryData :=
  { Services := [], Version := "1.0.0", Updated := now }

/-- `New` (registry.go lines 50–73): ensure the directory exists, create the
file with an empty document if absent.  `mkdirOk` models `os.MkdirAll`. -/
def New (fs : FS) (filePath : String) (now : Int) (mkdirOk : Bool)
    (wo : WriteOutcome) : Option String × FS :=
  if ¬mkdirOk then (some "failed to create registry directory", fs)
  else
    match fs filePath with
    | some _ => (none, fs)
    | none =>
        match writeRegistryFile fs filePath (initialData now) wo with
        | (some e, fs') => (some ("failed to initialize registry file: " ++ e), fs')
        | (none, fs') => (none, fs')

/-! ## Watcher (watcher.go) -/

/-- The error value `ErrWatcherStopped = errors.New("watcher stopped")`. -/
def ErrWatcherStopped : String := "watcher stopped"

/-- Watcher state: the `stopped` flag, the cancellable context, and the two
single-slot delivery channels (`ch`, `errorCh`), each modelled as an optional
buffered item plus a closed flag. -/
structure Watcher where
  stopped     : Bool
  ctxDone     : Bool
  chClosed    : Bool
  errChClosed : Bool
  chBuf       : Option (List KServiceInstance)
  errBuf      : Option String
deriving DecidableEq

/-- The watcher state built by `NewWatcher` (watcher.go lines 37–52): running,
fresh context, both channels open and empty. -/
def newWatcherState : Watcher :=
  { stopped := false, ctxDone := false, chClosed := false,
    errChClosed := false, chBuf := none, errBuf := none }

/-- Which arm of the `select` in `Next` fires; Go chooses among the ready
arms, so the choice is an explicit parameter. -/
inductive SelectCase where
  | ctx
  | errc
  | instc
deriving DecidableEq

/-- Result of one `Next` call: an immediate return value, or blocking because
the chosen arm is not ready. -/
inductive NextOutcome where
  | ret (r : Except String (List KServiceInstance))
  | blocked

/-- `Watcher.Next` (watcher.go lines 60–82): if the watcher is stopped, return
`ErrWatcherStopped` at once, before the `select`.  Otherwise run the `select`:
a receive on a channel yields its buffered item if present, the
closed-channel zero value (`ok = false`, hence `ErrWatcherStopped`) if closed,
and blocks otherwise. -/
def Watcher.Next (w : Watcher) (pick : SelectCase) : NextOutcome × Watcher :=
  if w.stopped then (.ret (.error ErrWatcherStopped), w)
  else
    match pick with
    | .ctx =>
        if w.ctxDone then (.ret (.error ErrWatcherStopped), w)
        else (.blocked, w)
    | .errc =>
        match w.errBuf with
        | some e => (.ret (.error e), { w with errBuf := none })
        | none =>
            if w.errChClosed then (.ret (.error ErrWatcherStopped), w)
            else (.blocked, w)
    | .instc =>
        match w.chBuf with
        | some v => (.ret (.ok v), { w with chBuf := none })
        | none =>
            if w.chClosed then (.ret (.error ErrWatcherStopped), w)
            else (.blocked, w)

/-- `Watcher.Stop` (watcher.go lines 89–103): a second call returns
immediately; the first sets `stopped`, cancels the context and closes both
channels.  It always returns a nil error. -/
def Watcher.Stop (w : Watcher) : Option String × Watcher :=
  if w.stopped then (none, w)
  else
    (none,
      { w with stopped := true, ctxDone := true, chClosed := true,
               errChClosed := true })

/-- The per-tick body of the polling loop in `Watcher.watch`
(watcher.go lines 129–164): each tick fetches the full current instance set
via `GetService` and emits it, or emits the fetch error. -/
def watchTicks (filePath name : String) :
    List (FS × Bool) → List (Except String (List KServiceInstance))
  | [] => []
  | p :: rest =>
      (match GetService p.1 filePath name p.2 with
       | .ok v => Except.ok v
       | .error e => Except.error e) :: watchTicks filePath name rest

/-- The production trace of `Watcher.watch` (watcher.go lines 107–167) over a
run whose polls observe the given file systems: the initial fetch happens
immediately on start (before the first tick; its error, if any, is dropped),
then one fetch per tick. -/
def watchEmits (filePath name : String) :
    List (FS × Bool) → List (Except String (List KServiceInstance))
  | [] => []
  | p :: rest =>
      (match GetService p.1 filePath name p.2 with
       | .ok v => [Except.ok v]
       | .error _ => []) ++ watchTicks filePath name rest

/-! ## Helper lemmas about the list and map operations -/

theorem updateList_eq_findIdx (l : List ServiceInstance)
    (inst : ServiceInstance) :
    updateList l inst =
      match l.findIdx? (fun e => e.ID == inst.ID) with
      | some i => l.set i inst
      | none => l ++ [inst] := by
  induction l with
  | nil => rfl
  | cons e rest ih =>
    rw [updateList, List.findIdx?_cons]
    by_cases he : e.ID = inst.ID
    · simp [he]
    · rw [if_neg he, if_neg (show ¬(e.ID == inst.ID) = true by simpa using he),
        List.findIdx?_succ, ih]
      cases h' : rest.findIdx? (fun e => e.ID == inst.ID) with
      | none => simp
      | some i => simp [List.set]

theorem removeFirst_eq_findIdx (l : List ServiceInstance) (id : String) :
    removeFirst l id =
      match l.findIdx? (fun e => e.ID == id) with
      | some i => l.eraseIdx i
      | none => l := by
  induction l with
  | nil => rfl
  | cons e rest ih =>
    rw [removeFirst, List.findIdx?_cons]
    by_cases he : e.ID = id
    · simp [he, List.eraseIdx]
    · rw [if_neg he, if_neg (show ¬(e.ID == id) = true by simpa using he),
        List.findIdx?_succ, ih]
      cases h' : rest.findIdx? (fun e => e.ID == id) with
      | none => simp
      | some i => simp [List.eraseIdx]

theorem updateList_ne_nil (l : List ServiceInstance) (inst : ServiceInstance) :
    updateList l inst ≠ [] := by
  cases l with
  | nil => simp [updateList]
  | cons e rest =>
    rw [updateList]
    by_cases he : e.ID = inst.ID <;> simp [he]

theorem self_mem_updateList (l : List ServiceInstance)
    (inst : ServiceInstance) : inst ∈ updateList l inst := by
  induction l with
  | nil => simp [updateList]
  | cons e rest ih =>
    rw [updateList]
    by_cases he : e.ID = inst.ID
    · simp [he]
    · simp only [if_neg he, List.mem_cons]
      exact Or.inr ih

theorem mapSet_mapSet (m : SMap) (k : String)
    (v v' : List ServiceInstance) :
    mapSet (mapSet m k v) k v' = mapSet m k v' := by
  induction m with
  | nil => simp [mapSet]
  | cons p rest ih =>
    rw [mapSet]
    by_cases hp : p.1 = k
    · rw [if_pos hp, mapSet, if_pos rfl, mapSet, if_pos hp]
    · rw [if_neg hp, mapSet, if_neg hp, mapSet, if_neg hp, ih]

theorem updateList_updateList (l : List ServiceInstance)
    (i1 i2 : ServiceInstance) (h : i1.ID = i2.ID) :
    updateList (updateList l i1) i2 = updateList l i2 := by
  induction l with
  | nil => simp [updateList, h]
  | cons e rest ih =>
    rw [updateList]
    by_cases he : e.ID = i1.ID
    · rw [if_pos he, updateList, if_pos (h ▸ rfl), updateList,
        if_pos (he.trans h)]
    · rw [if_neg he, updateList, if_neg (fun hc => he (hc.trans h.symm)),
        updateList, if_neg (fun hc => he (hc.trans h.symm)), ih]

theorem countP_updateList (l : List ServiceInstance) (inst : ServiceInstance)
    (h : l.countP (fun e => e.ID == inst.ID) ≤ 1) :
    (updateList l inst).countP (fun e => e.ID == inst.ID) = 1 := by
  induction l with
  | nil => simp [updateList, List.countP_cons]
  | cons e rest ih =>
    rw [updateList]
    by_cases he : e.ID = inst.ID
    · rw [if_pos he]
      simp [List.countP_cons, show (e.ID == inst.ID) = true by simpa using he]
        at h ⊢
      exact h
    · rw [if_neg he]
      simp [List.countP_cons,
        show (e.ID == inst.ID) = false by simpa using he] at h ⊢
      exact ih h

/-- The temporary path is never the target path (it is four characters
longer). -/
theorem tmp_path_ne (s : String) : s ++ ".tmp" ≠ s := by
  intro h
  have hlen := congrArg String.length h
  rw [String.length_append] at hlen
  have h4 : (".tmp" : String).length = 4 := rfl
  omega

/-- Registering the same instance twice (with possibly different clock
readings) produces the same document as registering it once at the second
clock reading. -/
theorem registerData_twice (d : RegistryData) (s : KServiceInstance)
    (t1 t2 : Int) :
    registerData (registerData d s t1) s t2 = registerData d s t2 := by
  simp only [registerData]
  rw [mapGet_mapSet_self, mapSet_mapSet,
    updateList_updateList _ (mkInstance s t1) (mkInstance s t2) rfl]

/-- Concrete file system used by the witnesses: a fresh registry file. -/
def fsExample : FS :=
  fun p => if p = "registry.json" then some (initialData 0) else none

/-- Concrete caller instance used by the witnesses. -/
def svcA : KServiceInstance :=
  { ID := "1", Name := "svc", Version := "v1", Metadata := [],
    Endpoints := ["http://a"] }

/-! ## Claim theorems -/

/-- **C1**: for a non-nil instance, `Register` loads the current snapshot and,
if an entry with the registered `(name, id)` already exists in that name's
list, overwrites it in place (its position and the list length are preserved
by `List.set`); otherwise it appends a new instance stamped with the current
time.  The updated snapshot is persisted at the registry path before
`Register` returns success. -/
theorem Register_replace_or_append_persists
    (fs : FS) (filePath : String) (s : KServiceInstance) (now : Int)
    (d : RegistryData) (h : fs filePath = some d) :
    (Register fs filePath (some s) now true .ok).1 = none ∧
    (Register fs filePath (some s) now true .ok).2 filePath
      = some (registerData d s now) ∧
    mapGet (registerData d s now).Services s.Name =
      (match (mapGet d.Services s.Name).findIdx? (fun e => e.ID == s.ID) with
       | some i => (mapGet d.Services s.Name).set i (mkInstance s now)
       | none => mapGet d.Services s.Name ++ [mkInstance s now]) ∧
    (registerData d s now).Updated = now := by
  refine ⟨?_, ?_, ?_, rfl⟩
  · simp [Register, readRegistryFile, h, writeRegistryFile]
  · simp [Register, readRegistryFile, h, writeRegistryFile, renameFile,
      setFile]
  · rw [show (registerData d s now).Services
        = mapSet d.Services s.Name
            (updateList (mapGet d.Services s.Name) (mkInstance s now)) from rfl,
      mapGet_mapSet_self, updateList_eq_findIdx]
    rfl

/-- Witness for C1 at a fresh registry file. -/
theorem Register_replace_or_append_persists_witness :
    fsExample "registry.json" = some (initialData 0) ∧
    ((Register fsExample "registry.json" (some svcA) 5 true .ok).1 = none ∧
     (Register fsExample "registry.json" (some svcA) 5 true .ok).2
         "registry.json" = some (registerData (initialData 0) svcA 5) ∧
     mapGet (registerData (initialData 0) svcA 5).Services svcA.Name =
       (match (mapGet (initialData 0).Services svcA.Name).findIdx?
           (fun e => e.ID == svcA.ID) with
        | some i => (mapGet (initialData 0).Services svcA.Name).set i
            (mkInstance svcA 5)
        | none => mapGet (initialData 0).Services svcA.Name
            ++ [mkInstance svcA 5]) ∧
     (registerData (initialData 0) svcA 5).Updated = 5) :=
  ⟨by decide,
   Register_replace_or_append_persists fsExample "registry.json" svcA 5
     (initialData 0) (by decide)⟩

/-- **C2**: every snapshot write goes to the sibling temporary path
(`filePath ++ ".tmp"`) and is then renamed over the target: on success the
target holds the new document and the temporary file is gone; if the attempt
fails at the encode step or while writing the temporary file, an error is
returned and the target path still holds the prior content unchanged.  (The
`renameFail` conjunct exhibits the intermediate state: the full document
sits at the temporary path while the target is untouched.) -/
theorem writeRegistryFile_tmp_then_rename
    (fs : FS) (filePath : String) (d : RegistryData) :
    ((writeRegistryFile fs filePath d .ok).1 = none ∧
     (writeRegistryFile fs filePath d .ok).2 filePath = some d ∧
     (writeRegistryFile fs filePath d .ok).2 (filePath ++ ".tmp") = none) ∧
    ((writeRegistryFile fs filePath d .renameFail).2 (filePath ++ ".tmp")
        = some d ∧
     (writeRegistryFile fs filePath d .renameFail).2 filePath
        = fs filePath) ∧
    (∀ o : WriteOutcome,
      (o = .encodeFail ∨ ∃ lo, o = .tmpWriteFail lo) →
      (writeRegistryFile fs filePath d o).1.isSome = true ∧
      (writeRegistryFile fs filePath d o).2 filePath = fs filePath) := by
  refine ⟨⟨rfl, ?_, ?_⟩, ⟨?_, ?_⟩, ?_⟩
  · simp [writeRegistryFile, renameFile, setFile]
  · simp [writeRegistryFile, renameFile, setFile, tmp_path_ne filePath]
  · simp [writeRegistryFile, setFile]
  · simp only [writeRegistryFile, setFile]
    rw [if_neg (fun hc : filePath = filePath ++ ".tmp" =>
      tmp_path_ne filePath hc.symm)]
  · intro o ho
    rcases ho with ho | ⟨lo, ho⟩ <;> subst ho
    · exact ⟨rfl, rfl⟩
    · refine ⟨rfl, ?_⟩
      simp only [writeRegistryFile, setFile]
      rw [if_neg (fun hc : filePath = filePath ++ ".tmp" =>
        tmp_path_ne filePath hc.symm)]

/-- Witness for C2's failure clause at the encode-failure outcome. -/
theorem writeRegistryFile_tmp_then_rename_witness :
    (WriteOutcome.encodeFail = WriteOutcome.encodeFail ∨
      ∃ lo, WriteOutcome.encodeFail = WriteOutcome.tmpWriteFail lo) ∧
    ((writeRegistryFile fsExample "registry.json" (initialData 0)
        .encodeFail).1.isSome = true ∧
     (writeRegistryFile fsExample "registry.json" (initialData 0)
        .encodeFail).2 "registry.json" = fsExample "registry.json") :=
  ⟨Or.inl rfl,
   (writeRegistryFile_tmp_then_rename fsExample "registry.json"
      (initialData 0)).2.2 .encodeFail (Or.inl rfl)⟩

/-- A successful `Register` in one equation: no error, and the file system
after the write-to-temp-then-rename discipline. -/
theorem Register_ok_eq (fs : FS) (filePath : String) (s : KServiceInstance)
    (now : Int) (d : RegistryData) (h : fs filePath = some d) :
    Register fs filePath (some s) now true .ok
      = (none,
          renameFile (setFile fs (filePath ++ ".tmp")
            (some (registerData d s now))) (filePath ++ ".tmp") filePath) := by
  simp [Register, readRegistryFile, h, writeRegistryFile]

/-- The file-system component of a successful `Register`. -/
theorem Register_ok_snd (fs : FS) (filePath : String) (s : KServiceInstance)
    (now : Int) (d : RegistryData) (h : fs filePath = some d) :
    (Register fs filePath (some s) now true .ok).2
      = renameFile (setFile fs (filePath ++ ".tmp")
          (some (registerData d s now))) (filePath ++ ".tmp") filePath := by
  rw [Register_ok_eq fs filePath s now d h]

/-- After a write-to-temp-then-rename, the target path holds the written
document. -/
theorem renameFile_setFile_at_target (fs : FS) (filePath : String)
    (c : Option RegistryData) :
    renameFile (setFile fs (filePath ++ ".tmp") c) (filePath ++ ".tmp")
      filePath filePath = c := by
  simp [renameFile, setFile]

/-- The unknown instance used for the C3 witness. -/
def svcX : KServiceInstance :=
  { ID := "x", Name := "none", Version := "", Metadata := [],
    Endpoints := [] }

/-- A registry document holding one registered instance of `"svc"`. -/
def dReg : RegistryData := registerData (initialData 0) svcA 5

/-- A file system whose registry file holds `dReg`. -/
def fsReg : FS := setFile fsExample "registry.json" (some dReg)

/-- **C3**: `Deregister` succeeds (returns no error) whether or not the
`(name, id)` pair is present, persists the snapshot afterward in every case
(the written document carries the fresh `Updated` stamp), leaves the instance
list of every other service name unchanged, and removes exactly the first
matching entry when the pair is present (nothing when it is absent). -/
theorem Deregister_noop_on_missing_and_removes_match
    (fs : FS) (filePath : String) (s : KServiceInstance) (now : Int)
    (d : RegistryData) (h : fs filePath = some d) :
    ∃ fs' : FS,
      Deregister fs filePath (some s) now true .ok = .result none fs' ∧
      fs' filePath = some (deregisterData d s now) ∧
      (deregisterData d s now).Updated = now ∧
      (∀ k, k ≠ s.Name →
        mapGet (deregisterData d s now).Services k = mapGet d.Services k) ∧
      mapGet (deregisterData d s now).Services s.Name =
        (match (mapGet d.Services s.Name).findIdx?
            (fun e => e.ID == s.ID) with
         | some i => (mapGet d.Services s.Name).eraseIdx i
         | none => mapGet d.Services s.Name) := by
  refine ⟨renameFile (setFile fs (filePath ++ ".tmp")
      (some (deregisterData d s now))) (filePath ++ ".tmp") filePath,
    ?_, renameFile_setFile_at_target fs filePath _, rfl, ?_, ?_⟩
  · simp [Deregister, readRegistryFile, h, writeRegistryFile]
  · intro k hk
    show mapGet (if removeFirst (mapGet d.Services s.Name) s.ID = [] then
        mapDelete d.Services s.Name
      else mapSet d.Services s.Name
        (removeFirst (mapGet d.Services s.Name) s.ID)) k = mapGet d.Services k
    by_cases hre : removeFirst (mapGet d.Services s.Name) s.ID = []
    · rw [if_pos hre, mapGet_mapDelete_ne _ _ _ hk]
    · rw [if_neg hre, mapGet_mapSet_ne _ _ _ _ hk]
  · rw [← removeFirst_eq_findIdx]
    show mapGet (if removeFirst (mapGet d.Services s.Name) s.ID = [] then
        mapDelete d.Services s.Name
      else mapSet d.Services s.Name
        (removeFirst (mapGet d.Services s.Name) s.ID)) s.Name
      = removeFirst (mapGet d.Services s.Name) s.ID
    by_cases hre : removeFirst (mapGet d.Services s.Name) s.ID = []
    · rw [if_pos hre, mapGet_mapDelete_self, hre]
    · rw [if_neg hre, mapGet_mapSet_self]

/-- Witness for C3: deregistering the unknown pair `(name="none", id="x")`
from a registry holding one instance of `"svc"`. -/
theorem Deregister_noop_on_missing_and_removes_match_witness :
    fsReg "registry.json" = some dReg ∧
    (∃ fs' : FS,
      Deregister fsReg "registry.json" (some svcX) 9 true .ok
        = .result none fs' ∧
      fs' "registry.json" = some (deregisterData dReg svcX 9) ∧
      (deregisterData dReg svcX 9).Updated = 9 ∧
      (∀ k, k ≠ svcX.Name →
        mapGet (deregisterData dReg svcX 9).Services k
          = mapGet dReg.Services k) ∧
      mapGet (deregisterData dReg svcX 9).Services svcX.Name =
        (match (mapGet dReg.Services svcX.Name).findIdx?
            (fun e => e.ID == svcX.ID) with
         | some i => (mapGet dReg.Services svcX.Name).eraseIdx i
         | none => mapGet dReg.Services svcX.Name)) :=
  ⟨by decide,
   Deregister_noop_on_missing_and_removes_match fsReg "registry.json" svcX 9
     dReg (by decide)⟩

/-- **C4**: registering the same instance twice in a row leaves the registry
file in exactly the state of registering it once (at the second clock
reading), and — provided the starting list holds the `id` at most once, as
every snapshot the registry itself produces does — `GetService` afterwards
returns exactly one instance with that `id`. -/
theorem Register_idempotent
    (fs : FS) (filePath : String) (s : KServiceInstance) (t1 t2 : Int)
    (d : RegistryData) (h : fs filePath = some d)
    (hcount : (mapGet d.Services s.Name).countP
        (fun e => e.ID == s.ID) ≤ 1) :
    (Register (Register fs filePath (some s) t1 true .ok).2 filePath
        (some s) t2 true .ok).2
      = (Register fs filePath (some s) t2 true .ok).2 ∧
    GetService (Register (Register fs filePath (some s) t1 true .ok).2
        filePath (some s) t2 true .ok).2 filePath s.Name true
      = .ok ((mapGet (registerData d s t2).Services s.Name).map instToK) ∧
    ((mapGet (registerData d s t2).Services s.Name).map instToK).countP
        (fun e => e.ID == s.ID) = 1 := by
  have hA : (renameFile (setFile fs (filePath ++ ".tmp")
      (some (registerData d s t1))) (filePath ++ ".tmp") filePath) filePath
      = some (registerData d s t1) :=
    renameFile_setFile_at_target fs filePath _
  have h2 : (Register (Register fs filePath (some s) t1 true .ok).2 filePath
      (some s) t2 true .ok).2
      = renameFile (setFile (renameFile (setFile fs (filePath ++ ".tmp")
          (some (registerData d s t1))) (filePath ++ ".tmp") filePath)
          (filePath ++ ".tmp") (some (registerData d s t2)))
          (filePath ++ ".tmp") filePath := by
    rw [Register_ok_snd fs filePath s t1 d h,
      Register_ok_snd _ filePath s t2 _ hA, registerData_twice]
  have h2' : (Register (Register fs filePath (some s) t1 true .ok).2 filePath
      (some s) t2 true .ok).2 filePath = some (registerData d s t2) := by
    rw [h2]
    exact renameFile_setFile_at_target _ filePath _
  have hcnt : (mapGet (registerData d s t2).Services s.Name).countP
      (fun e => e.ID == s.ID) = 1 := by
    rw [show (registerData d s t2).Services
        = mapSet d.Services s.Name
            (updateList (mapGet d.Services s.Name) (mkInstance s t2))
        from rfl, mapGet_mapSet_self]
    exact countP_updateList _ (mkInstance s t2) hcount
  refine ⟨?_, ?_, ?_⟩
  · rw [h2, Register_ok_snd fs filePath s t2 d h]
    funext p
    by_cases hp : p = filePath
    · subst hp
      rw [renameFile_setFile_at_target, renameFile_setFile_at_target]
    · by_cases ht : p = filePath ++ ".tmp"
      · subst ht
        simp [renameFile, setFile, hp]
      · simp [renameFile, setFile, hp, ht]
  · simp [GetService, readRegistryFile, h2']
  · rw [List.countP_map]
    exact hcnt

/-- Witness for C4 at a fresh registry file (the `"1"` id occurs zero times
there, hence at most once). -/
theorem Register_idempotent_witness :
    fsExample "registry.json" = some (initialData 0) ∧
    (mapGet (initialData 0).Services svcA.Name).countP
        (fun e => e.ID == svcA.ID) ≤ 1 ∧
    ((Register (Register fsExample "registry.json" (some svcA) 5 true .ok).2
        "registry.json" (some svcA) 7 true .ok).2
      = (Register fsExample "registry.json" (some svcA) 7 true .ok).2 ∧
    GetService (Register (Register fsExample "registry.json" (some svcA) 5
        true .ok).2 "registry.json" (some svcA) 7 true .ok).2 "registry.json"
        svcA.Name true
      = .ok ((mapGet (registerData (initialData 0) svcA 7).Services
          svcA.Name).map instToK) ∧
    ((mapGet (registerData (initialData 0) svcA 7).Services svcA.Name).map
        instToK).countP (fun e => e.ID == svcA.ID) = 1) :=
  ⟨by decide, by decide,
   Register_idempotent fsExample "registry.json" svcA 5 7 (initialData 0)
     (by decide) (by decide)⟩

/-- A stopped watcher's `Stop` is the identity no-op success. -/
theorem Stop_of_stopped (w : Watcher) (h : w.stopped = true) :
    Watcher.Stop w = (none, w) := by
  unfold Watcher.Stop
  rw [if_pos h]

/-- A stopped watcher's `Next` returns `ErrWatcherStopped` at once, leaving
the state unchanged. -/
theorem Next_of_stopped (w : Watcher) (pick : SelectCase)
    (h : w.stopped = true) :
    Watcher.Next w pick = (.ret (.error ErrWatcherStopped), w) := by
  unfold Watcher.Next
  rw [if_pos h]

/-- **C5**: after `Stop`, every subsequent `Next` (whichever `select` arm the
runtime would pick) immediately returns the "watcher stopped" error — it
neither blocks nor changes the state, so all later `Next` calls behave the
same — and a second `Stop` is a no-op success that leaves the state, and
hence the outcome of any later `Next`, unchanged. -/
theorem Watcher_stop_semantics (w : Watcher) (pick : SelectCase) :
    (Watcher.Stop w).1 = none ∧
    (Watcher.Stop w).2.stopped = true ∧
    Watcher.Next (Watcher.Stop w).2 pick
      = (.ret (.error ErrWatcherStopped), (Watcher.Stop w).2) ∧
    Watcher.Stop (Watcher.Stop w).2 = (none, (Watcher.Stop w).2) ∧
    Watcher.Next (Watcher.Stop (Watcher.Stop w).2).2 pick
      = (.ret (.error ErrWatcherStopped), (Watcher.Stop w).2) := by
  have hs : (Watcher.Stop w).2.stopped = true := by
    unfold Watcher.Stop
    by_cases hw : w.stopped = true
    · rw [if_pos hw]
      exact hw
    · rw [if_neg hw]
  have h1 : (Watcher.Stop w).1 = none := by
    unfold Watcher.Stop
    by_cases hw : w.stopped = true
    · rw [if_pos hw]
    · rw [if_neg hw]
  refine ⟨h1, hs, Next_of_stopped _ pick hs, Stop_of_stopped _ hs, ?_⟩
  rw [Stop_of_stopped _ hs]
  exact Next_of_stopped _ pick hs

/-- **C6** (the code diverges from this claim): `Register` called with a nil
instance returns the validation error `"service cannot be nil"` without
touching the file, but `Deregister` performs no nil validation: when the
registry file read succeeds — the normal path — it dereferences the nil
pointer (`service.Name`, registry.go line 155) and panics instead of
returning a validation error.  Only a failing read avoids the dereference,
and then what is returned is the wrapped read error, still not a validation
error. -/
theorem Register_nil_error_but_Deregister_nil_panics
    (fs : FS) (filePath : String) (now : Int) (readOk : Bool)
    (wo : WriteOutcome) (d : RegistryData) (h : fs filePath = some d) :
    Register fs filePath none now readOk wo
      = (some "service cannot be nil", fs) ∧
    Deregister fs filePath none now true wo = .nilPanic ∧
    Deregister fs filePath none now false wo
      = .result (some ("failed to read registry file: "
          ++ "read or unmarshal failed")) fs := by
  refine ⟨rfl, ?_, rfl⟩
  simp [Deregister, readRegistryFile, h]

/-- Witness for C6 at a readable registry file. -/
theorem Register_nil_error_but_Deregister_nil_panics_witness :
    fsExample "registry.json" = some (initialData 0) ∧
    (Register fsExample "registry.json" none 5 true .ok
      = (some "service cannot be nil", fsExample) ∧
    Deregister fsExample "registry.json" none 5 true .ok = .nilPanic ∧
    Deregister fsExample "registry.json" none 5 false .ok
      = .result (some ("failed to read registry file: "
          ++ "read or unmarshal failed")) fsExample) :=
  ⟨by decide,
   Register_nil_error_but_Deregister_nil_panics fsExample "registry.json" 5
     true .ok (initialData 0) (by decide)⟩

/-- A caller instance with an absent (empty) id. -/
def svcEmptyID : KServiceInstance :=
  { ID := "", Name := "svc", Version := "v1", Metadata := [],
    Endpoints := ["http://a"] }

/-- Counterexample to **C7**: registering an instance with an empty id into a
fresh registry stores — and `GetService` returns — the id empty, not
defaulted to the service name `"svc"`. -/
theorem Register_empty_id_not_defaulted_cex :
    GetService (Register fsExample "registry.json" (some svcEmptyID) 5 true
        .ok).2 "registry.json" "svc" true
      = .ok [{ ID := "", Name := "svc", Version := "v1", Metadata := [],
               Endpoints := ["http://a"] }] ∧
    ("" : String) ≠ "svc" := by
  constructor
  · rfl
  · decide

/-- Amended C7: the registry stores the caller's id exactly as supplied —
an empty id stays empty; no defaulting to the service name happens
anywhere in `Register`. -/
theorem Register_stores_id_verbatim (d : RegistryData)
    (s : KServiceInstance) (now : Int) :
    (mkInstance s now).ID = s.ID ∧
    mkInstance s now ∈ mapGet (registerData d s now).Services s.Name := by
  refine ⟨rfl, ?_⟩
  rw [show (registerData d s now).Services
      = mapSet d.Services s.Name
          (updateList (mapGet d.Services s.Name) (mkInstance s now))
      from rfl, mapGet_mapSet_self]
  exact self_mem_updateList _ _

/-- A caller instance listing the same endpoint twice. -/
def svcDup : KServiceInstance :=
  { ID := "1", Name := "svc", Version := "v1", Metadata := [],
    Endpoints := ["http://a", "http://a"] }

/-- Counterexample to **C8**: registering an instance whose endpoint list
contains `"http://a"` twice stores — and `GetService` returns — both copies;
nothing deduplicates the endpoints. -/
theorem Register_duplicate_endpoints_kept_cex :
    GetService (Register fsExample "registry.json" (some svcDup) 5 true
        .ok).2 "registry.json" "svc" true
      = .ok [{ ID := "1", Name := "svc", Version := "v1", Metadata := [],
               Endpoints := ["http://a", "http://a"] }] ∧
    (["http://a", "http://a"] : List String).count "http://a" = 2 := by
  constructor
  · rfl
  · decide

/-- Amended C8: the stored instance's endpoint sequence is exactly the
caller's sequence, duplicates included. -/
theorem Register_stores_endpoints_verbatim (d : RegistryData)
    (s : KServiceInstance) (now : Int) :
    (mkInstance s now).Endpoints = s.Endpoints ∧
    mkInstance s now ∈ mapGet (registerData d s now).Services s.Name := by
  refine ⟨rfl, ?_⟩
  rw [show (registerData d s now).Services
      = mapSet d.Services s.Name
          (updateList (mapGet d.Services s.Name) (mkInstance s now))
      from rfl, mapGet_mapSet_self]
  exact self_mem_updateList _ _

/-- The branch in the polling loop that forwards a fetch result to the
matching channel is the identity on the `Except` value. -/
theorem tick_forward_id (r : Except String (List KServiceInstance)) :
    (match r with
     | .ok v => Except.ok v
     | .error e => Except.error e) = r := by
  cases r <;> rfl

/-- Every emission of the ticker loop is the `GetService` result of one of
its polls. -/
theorem watchTicks_mem (filePath name : String) (polls : List (FS × Bool)) :
    ∀ r ∈ watchTicks filePath name polls,
      ∃ i : Fin polls.length,
        r = GetService (polls.get i).1 filePath name (polls.get i).2 := by
  induction polls with
  | nil => simp [watchTicks]
  | cons p rest ih =>
    intro r hr
    rw [watchTicks] at hr
    rcases List.mem_cons.mp hr with h | h
    · exact ⟨⟨0, Nat.succ_pos _⟩, h.trans (tick_forward_id _)⟩
    · obtain ⟨i, hi⟩ := ih r h
      exact ⟨i.succ, by simpa using hi⟩

/-- **C9**: every value the watch loop produces for delivery through `Next`
is a full `GetService` snapshot taken at one of its polls (never a diff), and
the very first delivered value is the snapshot fetched immediately at watcher
start — the head of the poll sequence, before any ticker interval has
elapsed. -/
theorem watch_emits_full_snapshots (filePath name : String)
    (polls : List (FS × Bool)) :
    (∀ r ∈ watchEmits filePath name polls,
      ∃ i : Fin polls.length,
        r = GetService (polls.get i).1 filePath name (polls.get i).2) ∧
    (∀ p0 rest v, polls = p0 :: rest →
      GetService p0.1 filePath name p0.2 = .ok v →
      (watchEmits filePath name polls).head? = some (.ok v)) := by
  constructor
  · intro r hr
    cases polls with
    | nil => simp [watchEmits] at hr
    | cons p0 rest =>
      rw [watchEmits] at hr
      rcases List.mem_append.mp hr with h | h
      · cases hg : GetService p0.1 filePath name p0.2 with
        | ok v =>
          rw [hg] at h
          simp only [List.mem_singleton] at h
          exact ⟨⟨0, Nat.succ_pos _⟩, h.trans hg.symm⟩
        | error e =>
          rw [hg] at h
          simp at h
      · obtain ⟨i, hi⟩ := watchTicks_mem filePath name rest r h
        exact ⟨i.succ, by simpa using hi⟩
  · intro p0 rest v hpolls hg
    subst hpolls
    rw [watchEmits, hg]
    rfl

/-- Witness for C9: one poll over a registry holding one `"svc"` instance;
the first emission is that full instance set. -/
theorem watch_emits_full_snapshots_witness :
    ([((fsReg, true) : FS × Bool)] = (fsReg, true) :: []) ∧
    GetService fsReg "registry.json" "svc" true
      = .ok [instToK (mkInstance svcA 5)] ∧
    (watchEmits "registry.json" "svc" [(fsReg, true)]).head?
      = some (.ok [instToK (mkInstance svcA 5)]) :=
  ⟨rfl, rfl,
   (watch_emits_full_snapshots "registry.json" "svc" [(fsReg, true)]).2
     (fsReg, true) [] [instToK (mkInstance svcA 5)] rfl rfl⟩

/-- Membership in a map after `mapSet`: the new binding or an old one. -/
theorem mem_mapSet (m : SMap) (k : String) (v : List ServiceInstance)
    (p : String × List ServiceInstance) (hp : p ∈ mapSet m k v) :
    p = (k, v) ∨ p ∈ m := by
  induction m with
  | nil =>
    simp [mapSet] at hp
    exact Or.inl hp
  | cons q rest ih =>
    rw [mapSet] at hp
    by_cases hq : q.1 = k
    · rw [if_pos hq] at hp
      rcases List.mem_cons.mp hp with h | h
      · exact Or.inl h
      · exact Or.inr (List.mem_cons_of_mem _ h)
    · rw [if_neg hq] at hp
      rcases List.mem_cons.mp hp with h | h
      · exact Or.inr (h ▸ List.mem_cons_self _ _)
      · rcases ih h with h' | h'
        · exact Or.inl h'
        · exact Or.inr (List.mem_cons_of_mem _ h')

/-- Membership after `mapDelete` implies membership before. -/
theorem mem_mapDelete (m : SMap) (k : String)
    (p : String × List ServiceInstance) (hp : p ∈ mapDelete m k) : p ∈ m :=
  List.mem_of_mem_filter hp

/-- After `delete(m, k)` the key `k` is gone. -/
theorem mapHasKey_mapDelete_self (m : SMap) (k : String) :
    mapHasKey (mapDelete m k) k = false := by
  induction m with
  | nil => rfl
  | cons p rest ih =>
    unfold mapDelete at *
    by_cases hp : p.1 = k
    · simp only [List.filter]
      rw [show (decide (p.1 ≠ k)) = false by simpa using hp]
      exact ih
    · simp only [List.filter]
      rw [show (decide (p.1 ≠ k)) = true by simpa using hp]
      rw [mapHasKey, List.any_cons] at *
      simp only [show (decide (p.1 = k)) = false by simpa using hp,
        Bool.false_or]
      exact ih

/-- In a map all of whose bindings are nonempty lists, a present key's list
is nonempty. -/
theorem mapGet_ne_nil_of_hasKey (m : SMap)
    (hm : ∀ p ∈ m, p.2 ≠ []) (k : String) (hk : mapHasKey m k = true) :
    mapGet m k ≠ [] := by
  induction m with
  | nil => simp [mapHasKey] at hk
  | cons p rest ih =>
    rw [mapGet]
    by_cases hp : p.1 = k
    · rw [if_pos hp]
      exact hm p (List.mem_cons_self _ _)
    · rw [if_neg hp]
      rw [mapHasKey, List.any_cons] at hk
      simp only [show (decide (p.1 = k)) = false by simpa using hp,
        Bool.false_or] at hk
      exact ih (fun q hq => hm q (List.mem_cons_of_mem _ hq)) hk

/-- **C10**: the services map of every document the registry persists binds a
name only to a nonempty instance list.  The initial document written by `New`
has no bindings; `Register` and `Deregister` preserve the invariant (and by
C1/C3 the documents they write are exactly `registerData`/`deregisterData` of
the document read); `Deregister` of the last instance under a name deletes
the name's key entirely rather than leaving an empty list; and under the
invariant a present key always carries at least one instance. -/
theorem no_empty_instance_list_invariant :
    (∀ t : Int, ∀ p ∈ (initialData t).Services, p.2 ≠ []) ∧
    (∀ (d : RegistryData) (s : KServiceInstance) (now : Int),
      (∀ p ∈ d.Services, p.2 ≠ []) →
      ∀ p ∈ (registerData d s now).Services, p.2 ≠ []) ∧
    (∀ (d : RegistryData) (s : KServiceInstance) (now : Int),
      (∀ p ∈ d.Services, p.2 ≠ []) →
      ∀ p ∈ (deregisterData d s now).Services, p.2 ≠ []) ∧
    (∀ (d : RegistryData) (s : KServiceInstance) (now : Int),
      removeFirst (mapGet d.Services s.Name) s.ID = [] →
      mapGet (deregisterData d s now).Services s.Name = [] ∧
      mapHasKey (deregisterData d s now).Services s.Name = false) ∧
    (∀ m : SMap, (∀ p ∈ m, p.2 ≠ []) →
      ∀ k, mapHasKey m k = true → mapGet m k ≠ []) := by
  refine ⟨?_, ?_, ?_, ?_, fun m hm k hk => mapGet_ne_nil_of_hasKey m hm k hk⟩
  · intro t p hp
    simp [initialData] at hp
  · intro d s now hd p hp
    rcases mem_mapSet _ _ _ p hp with h | h
    · rw [h]
      exact updateList_ne_nil _ _
    · exact hd p h
  · intro d s now hd p hp
    show p.2 ≠ []
    have : p ∈ (if removeFirst (mapGet d.Services s.Name) s.ID = [] then
        mapDelete d.Services s.Name
      else mapSet d.Services s.Name
        (removeFirst (mapGet d.Services s.Name) s.ID)) := hp
    by_cases hre : removeFirst (mapGet d.Services s.Name) s.ID = []
    · rw [if_pos hre] at this
      exact hd p (mem_mapDelete _ _ p this)
    · rw [if_neg hre] at this
      rcases mem_mapSet _ _ _ p this with h | h
      · rw [h]
        exact hre
      · exact hd p h
  · intro d s now hre
    constructor
    · show mapGet (if removeFirst (mapGet d.Services s.Name) s.ID = [] then
          mapDelete d.Services s.Name
        else mapSet d.Services s.Name
          (removeFirst (mapGet d.Services s.Name) s.ID)) s.Name = []
      rw [if_pos hre, mapGet_mapDelete_self]
    · show mapHasKey (if removeFirst (mapGet d.Services s.Name) s.ID = []
          then mapDelete d.Services s.Name
        else mapSet d.Services s.Name
          (removeFirst (mapGet d.Services s.Name) s.ID)) s.Name = false
      rw [if_pos hre, mapHasKey_mapDelete_self]

/-- Witness for C10: deregistering the only `"svc"` instance deletes the
`"svc"` key from the document. -/
theorem no_empty_instance_list_invariant_witness :
    removeFirst (mapGet dReg.Services svcA.Name) svcA.ID = [] ∧
    (mapGet (deregisterData dReg svcA 9).Services svcA.Name = [] ∧
     mapHasKey (deregisterData dReg svcA 9).Services svcA.Name = false) :=
  ⟨by decide,
   no_empty_instance_list_invariant.2.2.2.1 dReg svcA 9 (by decide)⟩

end LocalRegistry
